import Mathlib

/-!
Query construction and row materialisation of the racing / sports repositories.

A shallow embedding of `racing/db/races.go` and `sports/db/sports.go`:
`applyFilter` (the query builder), `scanRaces` / `scanEvents` (the row
materialiser) and `Init` (the once-guarded seeding step), followed by the
theorems that settle the specification's claims about them.

Modelling conventions

* A Go `string` that reaches the builder is a protobuf string field and
  therefore valid UTF-8; it is modelled by a Lean `String` (a sequence of
  runes).  `len(s)` is the UTF-8 byte length.
* `strings.ToLower` / `strings.ToUpper` map every rune through
  `unicode.ToLower` / `unicode.ToUpper`.  Their behaviour on ASCII runes is
  fixed; their behaviour on the other runes (Go's Unicode case tables) is a
  parameter `lo` / `up` of the embedding, so every theorem holds for whatever
  those tables are.
* `[]interface{}` holding `int64` meeting ids and the constant `true` is a
  list of `Arg`.
* A nil `*Filter` is `none`.
-/

/-! ## The Go library functions used by the builder -/

/-- Embedding of `len(s)` of a Go string: its length in bytes. -/
def len (s : String) : Nat := s.utf8ByteSize

/-- Embedding of `unicode.ToLower`: ASCII runes `A`..`Z` are shifted to `a`..`z`, other ASCII
runes are unchanged, and a non-ASCII rune is mapped by the case table `lo`. -/
def unicode.ToLower (lo : Char → Char) (r : Char) : Char :=
  if r.val ≤ 127 then
    (if 'A'.val ≤ r.val ∧ r.val ≤ 'Z'.val then Char.ofNat (r.toNat + ('a'.toNat - 'A'.toNat)) else r)
  else lo r

/-- Embedding of `unicode.ToUpper`: ASCII runes `a`..`z` are shifted to `A`..`Z`, other ASCII
runes are unchanged, and a non-ASCII rune is mapped by the case table `up`. -/
def unicode.ToUpper (up : Char → Char) (r : Char) : Char :=
  if r.val ≤ 127 then
    (if 'a'.val ≤ r.val ∧ r.val ≤ 'z'.val then Char.ofNat (r.toNat - ('a'.toNat - 'A'.toNat)) else r)
  else up r

/-- Embedding of `strings.ToLower`: every rune mapped by `unicode.ToLower`. -/
def strings.ToLower (lo : Char → Char) (s : String) : String :=
  String.mk (s.data.map (unicode.ToLower lo))

/-- Embedding of `strings.ToUpper`: every rune mapped by `unicode.ToUpper`. -/
def strings.ToUpper (up : Char → Char) (s : String) : String :=
  String.mk (s.data.map (unicode.ToUpper up))

/-- Embedding of `strings.Repeat(s, count)`: `count` copies of `s`. -/
def strings.Repeat (s : String) : Nat → String
  | 0 => ""
  | n + 1 => s ++ strings.Repeat s n

/-- Embedding of `strings.Join(elems, sep)`. -/
def strings.Join : List String → String → String
  | [], _ => ""
  | [a], _ => a
  | a :: b :: rest, sep => a ++ sep ++ strings.Join (b :: rest) sep

/-! ## Data model -/

/-- A value bound to a positional placeholder (`interface{}` in the source):
an `int64` meeting id or a boolean. -/
inductive Arg where
  | int64 (v : Int)
  | bool (b : Bool)
  deriving DecidableEq, Repr

/-- Embedding of `racing.ListRacesRequestFilter` (generated protobuf message). -/
structure racing.ListRacesRequestFilter where
  MeetingIds : List Int
  VisibleOnly : Bool
  SortBy : String
  Order : String
  deriving DecidableEq, Repr

/-- Embedding of `sports.ListEventsRequestFilter` (generated protobuf message). -/
structure sports.ListEventsRequestFilter where
  MeetingIds : List Int
  VisibleOnly : Bool
  SortBy : String
  Order : String
  deriving DecidableEq, Repr

/-! ## The query builder -/

/-- The closure `strContainsIllegalChar` of `applyFilter`: does some byte of
`str` equal `';'`?  (In valid UTF-8 the byte `0x3B` only occurs as the rune
`';'`.) -/
def strContainsIllegalChar (str : String) : Bool :=
  str.data.any (fun c => c == ';')

/-- Embedding of `racesRepo.applyFilter` of `racing/db/races.go`. -/
def racesRepo.applyFilter (lo up : Char → Char) (query : String)
    (filter : Option racing.ListRacesRequestFilter) : String × List Arg :=
  let illegalCharFlag := false
  let clauses : List String := []
  let args : List Arg := []
  match filter with
  | none => (query, args)
  | some filter =>
    let (clauses, args) :=
      if filter.MeetingIds.length > 0 then
        (clauses ++ ["meeting_id IN (" ++ strings.Repeat "?," (filter.MeetingIds.length - 1) ++ "?)"],
          filter.MeetingIds.foldl (fun args meetingID => args ++ [Arg.int64 meetingID]) args)
      else (clauses, args)
    let (clauses, args) :=
      if filter.VisibleOnly then (clauses ++ ["visible = ?"], args ++ [Arg.bool true])
      else (clauses, args)
    let query :=
      if clauses.length ≠ 0 then query ++ (" WHERE " ++ strings.Join clauses " AND ")
      else query
    let query := query ++ " ORDER BY "
    let orderByStr := "advertised_start_time"
    let (illegalCharFlag, query) :=
      let s := strings.ToLower lo filter.SortBy
      if len s > 0 then (illegalCharFlag, query ++ s)
      else if strContainsIllegalChar s then (true, query ++ orderByStr)
      else (illegalCharFlag, query ++ orderByStr)
    let (illegalCharFlag, query) :=
      let s := strings.ToUpper up filter.Order
      if s = "ASC" ∨ s = "ASCENDING" then (illegalCharFlag, query ++ " ASC")
      else if strContainsIllegalChar s then (true, query ++ " DESC")
      else (illegalCharFlag, query ++ " DESC")
    -- `if illegalCharFlag { }`: the flag is read and nothing is done with it
    let query := if illegalCharFlag then query else query
    (query, args)

/-- Embedding of `eventsRepo.applyFilter` of `sports/db/sports.go`. -/
def eventsRepo.applyFilter (lo up : Char → Char) (query : String)
    (filter : Option sports.ListEventsRequestFilter) : String × List Arg :=
  let illegalCharFlag := false
  let clauses : List String := []
  let args : List Arg := []
  match filter with
  | none => (query, args)
  | some filter =>
    let (clauses, args) :=
      if filter.MeetingIds.length > 0 then
        (clauses ++ ["meeting_id IN (" ++ strings.Repeat "?," (filter.MeetingIds.length - 1) ++ "?)"],
          filter.MeetingIds.foldl (fun args meetingID => args ++ [Arg.int64 meetingID]) args)
      else (clauses, args)
    let (clauses, args) :=
      if filter.VisibleOnly then (clauses ++ ["visible = ?"], args ++ [Arg.bool true])
      else (clauses, args)
    let query :=
      if clauses.length ≠ 0 then query ++ (" WHERE " ++ strings.Join clauses " AND ")
      else query
    let query := query ++ " ORDER BY "
    let orderByStr := "advertised_start_time"
    let (illegalCharFlag, query) :=
      let s := strings.ToLower lo filter.SortBy
      if len s > 0 then (illegalCharFlag, query ++ s)
      else if strContainsIllegalChar s then (true, query ++ orderByStr)
      else (illegalCharFlag, query ++ orderByStr)
    let (illegalCharFlag, query) :=
      let s := strings.ToUpper up filter.Order
      if s = "ASC" ∨ s = "ASCENDING" then (illegalCharFlag, query ++ " ASC")
      else if strContainsIllegalChar s then (true, query ++ " DESC")
      else (illegalCharFlag, query ++ " DESC")
    -- `if illegalCharFlag { }`: the flag is read and nothing is done with it
    let query := if illegalCharFlag then query else query
    (query, args)

/-! ## Auxiliary definitions used to state and prove the properties -/

/-- Number of `?` placeholders in a query text. -/
def countPlaceholders (s : String) : Nat := s.data.count '?'

/-- The text the builder produces for the `meeting_id IN (...)` clause of `n` ids. -/
def inClause (n : Nat) : String :=
  "meeting_id IN (" ++ strings.Repeat "?," (n - 1) ++ "?)"

/-- The `WHERE` part the builder appends for the given ids and visibility flag. -/
def whereText (ids : List Int) (vis : Bool) : String :=
  match ids, vis with
  | [], false => ""
  | [], true => " WHERE visible = ?"
  | _ :: _, false => " WHERE " ++ inClause ids.length
  | _ :: _, true => " WHERE " ++ inClause ids.length ++ " AND visible = ?"

/-- The arguments the builder binds for the given ids and visibility flag. -/
def whereArgs (ids : List Int) (vis : Bool) : List Arg :=
  ids.map Arg.int64 ++ (if vis then [Arg.bool true] else [])

/-- The sort field the builder writes after `ORDER BY`. -/
def sortField (lo : Char → Char) (sortBy : String) : String :=
  if sortBy = "" then "advertised_start_time" else strings.ToLower lo sortBy

/-- The direction suffix the builder writes after the sort field. -/
def sortDir (up : Char → Char) (order : String) : String :=
  if strings.ToUpper up order = "ASC" ∨ strings.ToUpper up order = "ASCENDING" then " ASC"
  else " DESC"

/-- The known queryable column names: the six columns the row materialiser
reads, which the specification names as the allow-list for `sortBy`. -/
def queryableColumns : List String :=
  ["id", "meeting_id", "name", "number", "visible", "advertised_start_time"]

/-! ## The row materialiser -/

/-- A Go `error` value: `sql.ErrNoRows`, or any other error with its message. -/
inductive GoError where
  | ErrNoRows
  | other (msg : String)
  deriving DecidableEq, Repr

/-- Embedding of `time.Time` as an instant on the wall clock: seconds since the Unix epoch
and the nanosecond offset within that second, which Go keeps in
`[0, 999999999]` (see `time.Time.wf`). -/
structure time.Time where
  sec : Int
  nsec : Int
  deriving DecidableEq, Repr

/-- The range invariant of a `time.Time`: its nanosecond offset lies in
`[0, 999999999]`. -/
def time.Time.wf (t : time.Time) : Prop := 0 ≤ t.nsec ∧ t.nsec < 1000000000

instance (t : time.Time) : Decidable t.wf := by
  unfold time.Time.wf
  infer_instance

/-- Embedding of `t.After(u)` for two times without monotonic clock reading in common (the
right operand here comes from `time.Unix` and has none): seconds are compared
first, then nanoseconds. -/
def time.Time.After (t u : time.Time) : Bool :=
  decide (t.sec > u.sec) || (decide (t.sec = u.sec) && decide (t.nsec > u.nsec))

/-- Embedding of `time.Unix(sec, nsec)`: an out-of-range `nsec` is first carried into `sec`. -/
def time.Unix (sec nsec : Int) : time.Time :=
  if nsec < 0 ∨ nsec ≥ 1000000000 then
    let n := Int.tdiv nsec 1000000000
    let sec := sec + n
    let nsec := nsec - n * 1000000000
    if nsec < 0 then { sec := sec - 1, nsec := nsec + 1000000000 }
    else { sec := sec, nsec := nsec }
  else { sec := sec, nsec := nsec }

/-- Embedding of `timestamppb.Timestamp`. -/
structure timestamppb.Timestamp where
  Seconds : Int
  Nanos : Int
  deriving DecidableEq, Repr

/-- Lower bound of a valid timestamp: 0001-01-01T00:00:00Z. -/
def ptypes.minValidSeconds : Int := -62135596800

/-- Upper bound (exclusive) of a valid timestamp: 10000-01-01T00:00:00Z. -/
def ptypes.maxValidSeconds : Int := 253402300800

/-- Embedding of `ptypes.TimestampProto(t)`: the timestamp with `t.Unix()` seconds and
`t.Nanosecond()` nanoseconds, or an error when it is not a valid timestamp. -/
def ptypes.TimestampProto (t : time.Time) : timestamppb.Timestamp ⊕ GoError :=
  let ts : timestamppb.Timestamp := { Seconds := t.sec, Nanos := t.nsec }
  if ts.Seconds < ptypes.minValidSeconds then Sum.inr (GoError.other "timestamp: before 0001-01-01")
  else if ts.Seconds ≥ ptypes.maxValidSeconds then Sum.inr (GoError.other "timestamp: after 10000-01-01")
  else if ts.Nanos < 0 ∨ ts.Nanos ≥ 1000000000 then Sum.inr (GoError.other "timestamp: nanos not in range [0, 1e9)")
  else Sum.inl ts

/-- What `rows.Scan` reads from one row, in the column order of the query:
id, meeting_id, name, number, visible, advertised_start_time. -/
structure sql.Row where
  Id : Int
  MeetingId : Int
  Name : String
  Number : Int
  Visible : Bool
  advertisedStart : time.Time
  deriving DecidableEq, Repr

/-- The outcome of `rows.Scan` on one row of the cursor. -/
inductive sql.Scan where
  | ok (row : sql.Row)
  | err (e : GoError)
  deriving DecidableEq, Repr

/-- Embedding of `racing.Race` (generated protobuf message). -/
structure racing.Race where
  Id : Int
  MeetingId : Int
  Name : String
  Number : Int
  Visible : Bool
  AdvertisedStartTime : timestamppb.Timestamp
  Status : String
  deriving DecidableEq, Repr

/-- Embedding of `sports.Event` (generated protobuf message). -/
structure sports.Event where
  Id : Int
  MeetingId : Int
  Name : String
  Number : Int
  Visible : Bool
  AdvertisedStartTime : timestamppb.Timestamp
  Status : String
  deriving DecidableEq, Repr

/-- The `for rows.Next()` loop of `racesRepo.scanRaces`: `rows` are the scan
outcomes still to come, `races` the records accumulated so far, and `now i` is
what `time.Now()` returns in iteration `i`. -/
def racesRepo.scanRaces.loop (now : Nat → time.Time) :
    Nat → List sql.Scan → List racing.Race → List racing.Race × Option GoError
  | _, [], races => (races, none)
  | _, sql.Scan.err e :: _, _ =>
    if e = GoError.ErrNoRows then ([], none) else ([], some e)
  | i, sql.Scan.ok row :: rest, races =>
    match ptypes.TimestampProto row.advertisedStart with
    | Sum.inr e => ([], some e)
    | Sum.inl ts =>
      let race : racing.Race :=
        { Id := row.Id, MeetingId := row.MeetingId, Name := row.Name, Number := row.Number,
          Visible := row.Visible, AdvertisedStartTime := ts, Status := "" }
      let race :=
        if (now i).After (time.Unix ts.Seconds ts.Nanos) then { race with Status := "CLOSED" }
        else { race with Status := "OPEN" }
      racesRepo.scanRaces.loop now (i + 1) rest (races ++ [race])

/-- Embedding of `racesRepo.scanRaces` of `racing/db/races.go`. -/
def racesRepo.scanRaces (now : Nat → time.Time) (rows : List sql.Scan) :
    List racing.Race × Option GoError :=
  racesRepo.scanRaces.loop now 0 rows []

/-- The `for rows.Next()` loop of `eventsRepo.scanEvents`. -/
def eventsRepo.scanEvents.loop (now : Nat → time.Time) :
    Nat → List sql.Scan → List sports.Event → List sports.Event × Option GoError
  | _, [], events => (events, none)
  | _, sql.Scan.err e :: _, _ =>
    if e = GoError.ErrNoRows then ([], none) else ([], some e)
  | i, sql.Scan.ok row :: rest, events =>
    match ptypes.TimestampProto row.advertisedStart with
    | Sum.inr e => ([], some e)
    | Sum.inl ts =>
      let event : sports.Event :=
        { Id := row.Id, MeetingId := row.MeetingId, Name := row.Name, Number := row.Number,
          Visible := row.Visible, AdvertisedStartTime := ts, Status := "" }
      let event :=
        if (now i).After (time.Unix ts.Seconds ts.Nanos) then { event with Status := "CLOSED" }
        else { event with Status := "OPEN" }
      eventsRepo.scanEvents.loop now (i + 1) rest (events ++ [event])

/-- Embedding of `eventsRepo.scanEvents` of `sports/db/sports.go`. -/
def eventsRepo.scanEvents (now : Nat → time.Time) (rows : List sql.Scan) :
    List sports.Event × Option GoError :=
  eventsRepo.scanEvents.loop now 0 rows []

/-! ## Once-guarded initialisation -/

/-- Embedding of `sync.Once`: whether `Do` has already run its function. -/
structure sync.Once where
  done : Bool
  deriving DecidableEq, Repr

/-- Embedding of `racesRepo`: the storage handle (its state is of type `DB`) and the once guard. -/
structure racesRepo (DB : Type) where
  db : DB
  init : sync.Once

/-- Embedding of `eventsRepo`: the storage handle and the once guard. -/
structure eventsRepo (DB : Type) where
  db : DB
  init : sync.Once

/-- Embedding of `NewRacesRepo`: a repository over `db` with the zero-value once guard. -/
def NewRacesRepo {DB : Type} (db : DB) : racesRepo DB := { db := db, init := { done := false } }

/-- Embedding of `NewEventsRepo`: a repository over `db` with the zero-value once guard. -/
def NewEventsRepo {DB : Type} (db : DB) : eventsRepo DB := { db := db, init := { done := false } }

/-- Embedding of `racesRepo.Init`: `err` starts as nil; `r.init.Do` runs the function that
assigns `err = r.seed()` only if the guard has not fired yet; `err` is returned.
The seeding routine `seed` acts on the storage and reports its error. -/
def racesRepo.Init {DB : Type} (seed : DB → DB × Option GoError) (r : racesRepo DB) :
    racesRepo DB × Option GoError :=
  let err : Option GoError := none
  let (r, err) :=
    if r.init.done then (r, err)
    else
      let (db, e) := seed r.db
      ({ db := db, init := { done := true } }, e)
  (r, err)

/-- Embedding of `eventsRepo.Init`, as `racesRepo.Init`. -/
def eventsRepo.Init {DB : Type} (seed : DB → DB × Option GoError) (r : eventsRepo DB) :
    eventsRepo DB × Option GoError :=
  let err : Option GoError := none
  let (r, err) :=
    if r.init.done then (r, err)
    else
      let (db, e) := seed r.db
      ({ db := db, init := { done := true } }, e)
  (r, err)

/-- The outcomes of `n` successive `Init` calls on one races repository,
together with the repository after them. -/
def racesRepo.InitCalls {DB : Type} (seed : DB → DB × Option GoError) :
    Nat → racesRepo DB → List (Option GoError) × racesRepo DB
  | 0, r => ([], r)
  | n + 1, r =>
    let (r1, e) := racesRepo.Init seed r
    let (es, r2) := racesRepo.InitCalls seed n r1
    (e :: es, r2)

/-- The outcomes of `n` successive `Init` calls on one events repository,
together with the repository after them. -/
def eventsRepo.InitCalls {DB : Type} (seed : DB → DB × Option GoError) :
    Nat → eventsRepo DB → List (Option GoError) × eventsRepo DB
  | 0, r => ([], r)
  | n + 1, r =>
    let (r1, e) := eventsRepo.Init seed r
    let (es, r2) := eventsRepo.InitCalls seed n r1
    (e :: es, r2)

/-! ## Lemmas on the library functions -/

theorem len_pos_iff (s : String) : 0 < len s ↔ s ≠ "" := by
  cases s with
  | mk d =>
    cases d with
    | nil => simp [len, String.utf8ByteSize, String.utf8ByteSize.go]
    | cons c cs =>
      have hc := Char.utf8Size_pos c
      have hne : (String.mk (c :: cs)) ≠ "" := by
        intro h
        have := congrArg String.data h
        simp at this
      simp only [len, String.utf8ByteSize, String.utf8ByteSize.go, ne_eq, hne, not_false_eq_true,
        iff_true]
      omega

theorem ToLower_eq_empty_iff (lo : Char → Char) (s : String) :
    strings.ToLower lo s = "" ↔ s = "" := by
  cases s with
  | mk d =>
    cases d with
    | nil => simp [strings.ToLower]
    | cons c cs =>
      constructor
      · intro h
        have := congrArg String.data h
        simp [strings.ToLower] at this
      · intro h
        have := congrArg String.data h
        simp at this

theorem foldl_append_args (ids : List Int) (init : List Arg) :
    ids.foldl (fun args meetingID => args ++ [Arg.int64 meetingID]) init
      = init ++ ids.map Arg.int64 := by
  induction ids generalizing init with
  | nil => simp
  | cons a as ih => simp [ih]

/-! ## Normal form of the builder -/

theorem races_applyFilter_some (lo up : Char → Char) (query : String)
    (f : racing.ListRacesRequestFilter) :
    racesRepo.applyFilter lo up query (some f)
      = (query ++ whereText f.MeetingIds f.VisibleOnly ++ " ORDER BY " ++ sortField lo f.SortBy
          ++ sortDir up f.Order, whereArgs f.MeetingIds f.VisibleOnly) := by
  obtain ⟨ids, vis, sortBy, order⟩ := f
  have hlen : (0 < len (strings.ToLower lo sortBy)) ↔ ¬ sortBy = "" := by
    rw [len_pos_iff, ne_eq, ToLower_eq_empty_iff]
  cases ids <;> cases vis <;>
    simp only [racesRepo.applyFilter, whereText, whereArgs, sortField, sortDir, inClause, hlen,
      foldl_append_args, strings.Join, apply_ite Prod.snd, ite_self] <;>
    by_cases hs : sortBy = "" <;>
    by_cases ho : strings.ToUpper up order = "ASC" ∨ strings.ToUpper up order = "ASCENDING" <;>
    simp [hs, ho, strings.Join, String.append_assoc]

theorem events_applyFilter_some (lo up : Char → Char) (query : String)
    (f : sports.ListEventsRequestFilter) :
    eventsRepo.applyFilter lo up query (some f)
      = (query ++ whereText f.MeetingIds f.VisibleOnly ++ " ORDER BY " ++ sortField lo f.SortBy
          ++ sortDir up f.Order, whereArgs f.MeetingIds f.VisibleOnly) := by
  obtain ⟨ids, vis, sortBy, order⟩ := f
  have hlen : (0 < len (strings.ToLower lo sortBy)) ↔ ¬ sortBy = "" := by
    rw [len_pos_iff, ne_eq, ToLower_eq_empty_iff]
  cases ids <;> cases vis <;>
    simp only [eventsRepo.applyFilter, whereText, whereArgs, sortField, sortDir, inClause, hlen,
      foldl_append_args, strings.Join, apply_ite Prod.snd, ite_self] <;>
    by_cases hs : sortBy = "" <;>
    by_cases ho : strings.ToUpper up order = "ASC" ∨ strings.ToUpper up order = "ASCENDING" <;>
    simp [hs, ho, strings.Join, String.append_assoc]

/-! ## Counting placeholders -/

theorem countPlaceholders_append (a b : String) :
    countPlaceholders (a ++ b) = countPlaceholders a + countPlaceholders b := by
  simp [countPlaceholders]

theorem countPlaceholders_Repeat (n : Nat) : countPlaceholders (strings.Repeat "?," n) = n := by
  induction n with
  | zero => rfl
  | succ k ih =>
    have h2 : countPlaceholders "?," = 1 := by decide
    rw [strings.Repeat, countPlaceholders_append, ih, h2]
    omega

theorem countPlaceholders_inClause (n : Nat) (hn : 0 < n) : countPlaceholders (inClause n) = n := by
  have h1 : countPlaceholders "meeting_id IN (" = 0 := by decide
  have h2 : countPlaceholders "?)" = 1 := by decide
  rw [inClause, countPlaceholders_append, countPlaceholders_append, countPlaceholders_Repeat, h1, h2]
  omega

theorem countPlaceholders_whereText (ids : List Int) (vis : Bool) :
    countPlaceholders (whereText ids vis) = (whereArgs ids vis).length := by
  have h1 : countPlaceholders " WHERE " = 0 := by decide
  have h2 : countPlaceholders " AND visible = ?" = 1 := by decide
  have h3 : countPlaceholders " WHERE visible = ?" = 1 := by decide
  have h4 : countPlaceholders "" = 0 := by decide
  cases ids with
  | nil => cases vis <;> simp [whereText, whereArgs, h3, h4]
  | cons a as =>
    have hin := countPlaceholders_inClause (a :: as).length (by simp)
    cases vis <;>
      simp only [whereText, whereArgs, countPlaceholders_append, hin, h1, h2] <;> simp

theorem countPlaceholders_sortDir (up : Char → Char) (order : String) :
    countPlaceholders (sortDir up order) = 0 := by
  unfold sortDir
  split <;> decide

theorem countPlaceholders_sortField (lo : Char → Char) (sortBy : String) :
    countPlaceholders (sortField lo sortBy) = countPlaceholders (strings.ToLower lo sortBy) := by
  unfold sortField
  split
  · next h =>
    subst h
    have h0 : strings.ToLower lo "" = "" := rfl
    rw [h0]
    decide
  · rfl

/-- The number of placeholders in a built query: those of the base query, one
for each bound argument, and those the lowercased `sortBy` text carries. -/
theorem countPlaceholders_built (lo up : Char → Char) (q : String) (ids : List Int) (vis : Bool)
    (sortBy order : String) :
    countPlaceholders (q ++ whereText ids vis ++ " ORDER BY " ++ sortField lo sortBy
        ++ sortDir up order)
      = countPlaceholders q + (whereArgs ids vis).length
          + countPlaceholders (strings.ToLower lo sortBy) := by
  have h1 : countPlaceholders " ORDER BY " = 0 := by decide
  simp only [countPlaceholders_append, countPlaceholders_whereText, countPlaceholders_sortDir,
    countPlaceholders_sortField, h1]
  omega

/-! ## The claims about the query builder -/

/-- C1: for the filter with meetingIds = [1, 2], visibleOnly = true, sortBy = ""
and order = "", both builders turn the base query `SELECT * FROM items` into
`SELECT * FROM items WHERE meeting_id IN (?,?) AND visible = ? ORDER BY advertised_start_time DESC`
with the argument list [1, 2, true]. -/
theorem C1_scenario_ids_and_visible (lo up : Char → Char) :
    racesRepo.applyFilter lo up "SELECT * FROM items" (some ⟨[1, 2], true, "", ""⟩)
        = ("SELECT * FROM items WHERE meeting_id IN (?,?) AND visible = ? ORDER BY advertised_start_time DESC",
            [Arg.int64 1, Arg.int64 2, Arg.bool true])
      ∧ eventsRepo.applyFilter lo up "SELECT * FROM items" (some ⟨[1, 2], true, "", ""⟩)
        = ("SELECT * FROM items WHERE meeting_id IN (?,?) AND visible = ? ORDER BY advertised_start_time DESC",
            [Arg.int64 1, Arg.int64 2, Arg.bool true]) := by
  constructor <;> rfl

/-- C2: with an absent (nil) filter both builders return the base query
unchanged, with nothing appended, and an empty argument list. -/
theorem C2_nil_filter_returns_base (lo up : Char → Char) (query : String) :
    racesRepo.applyFilter lo up query none = (query, [])
      ∧ eventsRepo.applyFilter lo up query none = (query, []) :=
  ⟨rfl, rfl⟩

/-- C3, counterexample: the filter whose sortBy is `?` (no meeting ids, not
visible-only) turns the placeholder-free base query `SELECT * FROM items` into
`SELECT * FROM items ORDER BY ? DESC` with no arguments, whatever the case
tables are: one placeholder, zero arguments. -/
theorem C3_counterexample_placeholder_in_sortBy :
    (∀ lo up : Char → Char,
        racesRepo.applyFilter lo up "SELECT * FROM items" (some ⟨[], false, "?", ""⟩)
          = ("SELECT * FROM items ORDER BY ? DESC", []))
      ∧ (∀ lo up : Char → Char,
        eventsRepo.applyFilter lo up "SELECT * FROM items" (some ⟨[], false, "?", ""⟩)
          = ("SELECT * FROM items ORDER BY ? DESC", []))
      ∧ countPlaceholders "SELECT * FROM items" = 0
      ∧ countPlaceholders "SELECT * FROM items ORDER BY ? DESC" = 1
      ∧ ([] : List Arg).length = 0
      ∧ ¬ (∀ (lo up : Char → Char) (query : String) (filter : Option racing.ListRacesRequestFilter),
            countPlaceholders query = 0 →
            countPlaceholders (racesRepo.applyFilter lo up query filter).1
              = (racesRepo.applyFilter lo up query filter).2.length) := by
  refine ⟨fun _ _ => rfl, fun _ _ => rfl, by decide, by decide, rfl, ?_⟩
  intro h
  have h1 := h id id "SELECT * FROM items" (some ⟨[], false, "?", ""⟩) (by decide)
  revert h1
  decide

/-- C3, amended: for every filter (nil or not) whose lowercased sortBy carries no
`?`, and every base query without `?`, the number of `?` placeholders in the
built query equals the length of the returned argument list. -/
theorem C3_placeholders_match_args (lo up : Char → Char) (query : String)
    (rf : Option racing.ListRacesRequestFilter) (ef : Option sports.ListEventsRequestFilter)
    (hq : countPlaceholders query = 0)
    (hr : ∀ f, rf = some f → countPlaceholders (strings.ToLower lo f.SortBy) = 0)
    (he : ∀ f, ef = some f → countPlaceholders (strings.ToLower lo f.SortBy) = 0) :
    countPlaceholders (racesRepo.applyFilter lo up query rf).1
        = (racesRepo.applyFilter lo up query rf).2.length
      ∧ countPlaceholders (eventsRepo.applyFilter lo up query ef).1
        = (eventsRepo.applyFilter lo up query ef).2.length := by
  constructor
  · cases rf with
    | none => simpa [racesRepo.applyFilter] using hq
    | some f =>
      rw [races_applyFilter_some, countPlaceholders_built, hq, hr f rfl]
      simp
  · cases ef with
    | none => simpa [eventsRepo.applyFilter] using hq
    | some f =>
      rw [events_applyFilter_some, countPlaceholders_built, hq, he f rfl]
      simp

/-- C3, witness: the amended statement at the filter with meeting ids [1, 2],
visibleOnly set, sortBy `Number` and order `asc`, over `SELECT * FROM items`. -/
theorem C3_placeholders_match_args_witness :
    countPlaceholders "SELECT * FROM items" = 0
      ∧ countPlaceholders (racesRepo.applyFilter id id "SELECT * FROM items"
            (some ⟨[1, 2], true, "Number", "asc"⟩)).1
          = (racesRepo.applyFilter id id "SELECT * FROM items"
            (some ⟨[1, 2], true, "Number", "asc"⟩)).2.length
      ∧ countPlaceholders (eventsRepo.applyFilter id id "SELECT * FROM items"
            (some ⟨[1, 2], true, "Number", "asc"⟩)).1
          = (eventsRepo.applyFilter id id "SELECT * FROM items"
            (some ⟨[1, 2], true, "Number", "asc"⟩)).2.length :=
  ⟨by decide,
    C3_placeholders_match_args id id "SELECT * FROM items"
      (some ⟨[1, 2], true, "Number", "asc"⟩) (some ⟨[1, 2], true, "Number", "asc"⟩)
      (by decide)
      (by intro f hf; cases hf; decide)
      (by intro f hf; cases hf; decide)⟩

/-! ### Shape of the WHERE part -/

theorem Repeat_chars (n : Nat) : ∀ c ∈ (strings.Repeat "?," n).data, c = '?' ∨ c = ',' := by
  induction n with
  | zero => intro c hc; simp [strings.Repeat] at hc
  | succ k ih =>
    intro c hc
    rw [strings.Repeat, String.data_append, List.mem_append] at hc
    rcases hc with hc | hc
    · have h2 : ("?,").data = ['?', ','] := rfl
      rw [h2] at hc
      simpa using hc
    · exact ih c hc

theorem inClause_no_O (n : Nat) : 'O' ∉ (inClause n).data := by
  intro h
  simp only [inClause, String.data_append, List.mem_append] at h
  rcases h with (h | h) | h
  · revert h; decide
  · rcases Repeat_chars _ _ h with h | h <;> revert h <;> decide
  · revert h; decide

theorem whereText_no_O (ids : List Int) (vis : Bool) : 'O' ∉ (whereText ids vis).data := by
  have h1 : 'O' ∉ (" WHERE ").data := by decide
  have h2 : 'O' ∉ (" AND visible = ?").data := by decide
  have h3 : 'O' ∉ (" WHERE visible = ?").data := by decide
  have h4 : 'O' ∉ ("").data := by decide
  cases ids with
  | nil => cases vis <;> simp only [whereText] <;> assumption
  | cons a as =>
    have hin := inClause_no_O (a :: as).length
    cases vis <;>
      simp only [whereText, String.data_append, List.mem_append, not_or] <;>
      simp [h1, h2, inClause_no_O]

theorem whereText_of_ne_nil (ids : List Int) (vis : Bool) (h : ids ≠ []) :
    whereText ids vis
      = " WHERE meeting_id IN (" ++ (strings.Repeat "?," (ids.length - 1) ++ "?") ++ ")"
          ++ (if vis then " AND visible = ?" else "") := by
  have e1 : (" WHERE " : String) ++ "meeting_id IN (" = " WHERE meeting_id IN (" := by decide
  have e2 : ("?)" : String) = "?" ++ ")" := by decide
  cases ids with
  | nil => exact absurd rfl h
  | cons a as =>
    cases vis <;>
      simp only [whereText, inClause, e2, ← e1, String.append_assoc, if_true, Bool.false_eq_true,
        if_false, String.append_empty]

theorem whereText_nil_false : whereText [] false = "" := rfl

theorem whereArgs_nil_false : whereArgs [] false = [] := rfl

theorem in_placeholders_count (n : Nat) (hn : 0 < n) :
    countPlaceholders (strings.Repeat "?," (n - 1) ++ "?") = n := by
  have h2 : countPlaceholders "?" = 1 := by decide
  rw [countPlaceholders_append, countPlaceholders_Repeat, h2]
  omega

theorem in_placeholders_chars (n : Nat) :
    ∀ c ∈ (strings.Repeat "?," n ++ "?").data, c = '?' ∨ c = ',' := by
  intro c hc
  rw [String.data_append, List.mem_append] at hc
  rcases hc with hc | hc
  · exact Repeat_chars n c hc
  · have h2 : ("?").data = ['?'] := rfl
    rw [h2] at hc
    left
    simpa using hc

/-- C4, counterexample: the sortBy value `id; DROP TABLE races`, which is not a
column name, is written (lowercased) straight after `ORDER BY`, whatever the
case tables are; the built query fits no allow-listed column. -/
theorem C4_counterexample_unlisted_sortBy :
    (∀ lo up : Char → Char,
        racesRepo.applyFilter lo up "SELECT * FROM races"
            (some ⟨[], false, "id; DROP TABLE races", ""⟩)
          = ("SELECT * FROM races ORDER BY id; drop table races DESC", []))
      ∧ (∀ lo up : Char → Char,
        eventsRepo.applyFilter lo up "SELECT * FROM races"
            (some ⟨[], false, "id; DROP TABLE races", ""⟩)
          = ("SELECT * FROM races ORDER BY id; drop table races DESC", []))
      ∧ "id; drop table races" ∉ queryableColumns
      ∧ (∀ col ∈ queryableColumns, ∀ dir ∈ [" ASC", " DESC"],
          "SELECT * FROM races ORDER BY id; drop table races DESC"
            ≠ "SELECT * FROM races ORDER BY " ++ col ++ dir) := by
  refine ⟨fun _ _ => rfl, fun _ _ => rfl, by decide, by decide⟩

/-- C4, amended: for every non-nil filter the field written after `ORDER BY`
is `advertised_start_time` when sortBy is empty and the lowercased sortBy
itself otherwise, with no allow-list check; so the written field is a known
queryable column exactly when sortBy is empty or its lowercased form is one. -/
theorem C4_sort_field_is_unchecked (lo up : Char → Char) (query : String)
    (rf : racing.ListRacesRequestFilter) (ef : sports.ListEventsRequestFilter) :
    ((racesRepo.applyFilter lo up query (some rf)).1
        = query ++ whereText rf.MeetingIds rf.VisibleOnly ++ " ORDER BY "
            ++ (if rf.SortBy = "" then "advertised_start_time" else strings.ToLower lo rf.SortBy)
            ++ sortDir up rf.Order
      ∧ ((if rf.SortBy = "" then "advertised_start_time" else strings.ToLower lo rf.SortBy)
            ∈ queryableColumns
          ↔ (rf.SortBy = "" ∨ strings.ToLower lo rf.SortBy ∈ queryableColumns)))
    ∧ ((eventsRepo.applyFilter lo up query (some ef)).1
        = query ++ whereText ef.MeetingIds ef.VisibleOnly ++ " ORDER BY "
            ++ (if ef.SortBy = "" then "advertised_start_time" else strings.ToLower lo ef.SortBy)
            ++ sortDir up ef.Order
      ∧ ((if ef.SortBy = "" then "advertised_start_time" else strings.ToLower lo ef.SortBy)
            ∈ queryableColumns
          ↔ (ef.SortBy = "" ∨ strings.ToLower lo ef.SortBy ∈ queryableColumns))) := by
  have hdef : "advertised_start_time" ∈ queryableColumns := by decide
  refine ⟨⟨?_, ?_⟩, ⟨?_, ?_⟩⟩
  · rw [races_applyFilter_some]; rfl
  · by_cases h : rf.SortBy = "" <;> simp [h, hdef]
  · rw [events_applyFilter_some]; rfl
  · by_cases h : ef.SortBy = "" <;> simp [h, hdef]

/-- C5: for every non-nil filter the built query is the base query, the WHERE
part (which holds no `ORDER BY`), and then one ` ORDER BY <field> <direction>`
that ends the query; the direction is `ASC` exactly when the uppercased order
is `ASC` or `ASCENDING` and `DESC` for every other order, the empty one
included. -/
theorem C5_order_by_direction (lo up : Char → Char) (query : String)
    (rf : racing.ListRacesRequestFilter) (ef : sports.ListEventsRequestFilter) :
    ((racesRepo.applyFilter lo up query (some rf)).1
        = query ++ whereText rf.MeetingIds rf.VisibleOnly ++ " ORDER BY " ++ sortField lo rf.SortBy
            ++ " " ++ (if strings.ToUpper up rf.Order = "ASC" ∨ strings.ToUpper up rf.Order = "ASCENDING"
                        then "ASC" else "DESC")
      ∧ 'O' ∉ (whereText rf.MeetingIds rf.VisibleOnly).data
      ∧ (rf.Order = "" → (racesRepo.applyFilter lo up query (some rf)).1
          = query ++ whereText rf.MeetingIds rf.VisibleOnly ++ " ORDER BY " ++ sortField lo rf.SortBy
              ++ " DESC"))
    ∧ ((eventsRepo.applyFilter lo up query (some ef)).1
        = query ++ whereText ef.MeetingIds ef.VisibleOnly ++ " ORDER BY " ++ sortField lo ef.SortBy
            ++ " " ++ (if strings.ToUpper up ef.Order = "ASC" ∨ strings.ToUpper up ef.Order = "ASCENDING"
                        then "ASC" else "DESC")
      ∧ 'O' ∉ (whereText ef.MeetingIds ef.VisibleOnly).data
      ∧ (ef.Order = "" → (eventsRepo.applyFilter lo up query (some ef)).1
          = query ++ whereText ef.MeetingIds ef.VisibleOnly ++ " ORDER BY " ++ sortField lo ef.SortBy
              ++ " DESC")) := by
  have hdir : ∀ o : String,
      sortDir up o = " " ++ (if strings.ToUpper up o = "ASC" ∨ strings.ToUpper up o = "ASCENDING"
        then "ASC" else "DESC") := by
    intro o
    unfold sortDir
    split <;> rfl
  have hempty : sortDir up "" = " DESC" := rfl
  refine ⟨⟨?_, whereText_no_O _ _, ?_⟩, ⟨?_, whereText_no_O _ _, ?_⟩⟩
  · rw [races_applyFilter_some, hdir]
    simp only [String.append_assoc]
  · intro h
    rw [races_applyFilter_some, h, hempty]
  · rw [events_applyFilter_some, hdir]
    simp only [String.append_assoc]
  · intro h
    rw [events_applyFilter_some, h, hempty]

/-- C6: for every non-nil filter the field written after `ORDER BY ` is the
lowercased sortBy when sortBy is non-empty and `advertised_start_time` when it
is empty; and the filter with sortBy `number` and order `asc` gives a query that
ends in ` ORDER BY number ASC`. -/
theorem C6_sort_field (lo up : Char → Char) (query : String)
    (rf : racing.ListRacesRequestFilter) (ef : sports.ListEventsRequestFilter)
    (ids : List Int) (vis : Bool) :
    (racesRepo.applyFilter lo up query (some rf)).1
        = query ++ whereText rf.MeetingIds rf.VisibleOnly ++ " ORDER BY "
            ++ (if rf.SortBy = "" then "advertised_start_time" else strings.ToLower lo rf.SortBy)
            ++ sortDir up rf.Order
    ∧ (eventsRepo.applyFilter lo up query (some ef)).1
        = query ++ whereText ef.MeetingIds ef.VisibleOnly ++ " ORDER BY "
            ++ (if ef.SortBy = "" then "advertised_start_time" else strings.ToLower lo ef.SortBy)
            ++ sortDir up ef.Order
    ∧ (racesRepo.applyFilter lo up query (some ⟨ids, vis, "number", "asc"⟩)).1
        = query ++ whereText ids vis ++ " ORDER BY number ASC"
    ∧ (eventsRepo.applyFilter lo up query (some ⟨ids, vis, "number", "asc"⟩)).1
        = query ++ whereText ids vis ++ " ORDER BY number ASC"
    ∧ (racesRepo.applyFilter lo up query (some ⟨[], false, "number", "asc"⟩)).1
        = query ++ " ORDER BY number ASC"
    ∧ (eventsRepo.applyFilter lo up query (some ⟨[], false, "number", "asc"⟩)).1
        = query ++ " ORDER BY number ASC" := by
  have hf : sortField lo "number" = "number" := rfl
  have hd : sortDir up "asc" = " ASC" := rfl
  have hcat : (" ORDER BY " : String) ++ ("number" ++ " ASC") = " ORDER BY number ASC" := by decide
  refine ⟨?_, ?_, ?_, ?_, ?_, ?_⟩
  · rw [races_applyFilter_some]; rfl
  · rw [events_applyFilter_some]; rfl
  · rw [races_applyFilter_some]
    simp only [hf, hd, String.append_assoc, hcat]
  · rw [events_applyFilter_some]
    simp only [hf, hd, String.append_assoc, hcat]
  · rw [races_applyFilter_some]
    simp only [hf, hd, String.append_assoc, hcat, whereText_nil_false, String.empty_append]
  · rw [events_applyFilter_some]
    simp only [hf, hd, String.append_assoc, hcat, whereText_nil_false, String.empty_append]

/-- C7, counterexample: with the single meeting id 7 and visibleOnly set, the
builders return the two arguments [7, true], not a list of length N = 1. -/
theorem C7_counterexample_visible_adds_arg :
    (∀ lo up : Char → Char,
        racesRepo.applyFilter lo up "SELECT * FROM items" (some ⟨[7], true, "", ""⟩)
          = ("SELECT * FROM items WHERE meeting_id IN (?) AND visible = ? ORDER BY advertised_start_time DESC",
              [Arg.int64 7, Arg.bool true]))
      ∧ (∀ lo up : Char → Char,
        eventsRepo.applyFilter lo up "SELECT * FROM items" (some ⟨[7], true, "", ""⟩)
          = ("SELECT * FROM items WHERE meeting_id IN (?) AND visible = ? ORDER BY advertised_start_time DESC",
              [Arg.int64 7, Arg.bool true]))
      ∧ [Arg.int64 7, Arg.bool true].length = 2
      ∧ ([7] : List Int).length = 1
      ∧ [Arg.int64 7, Arg.bool true] ≠ ([7] : List Int).map Arg.int64 := by
  refine ⟨fun _ _ => rfl, fun _ _ => rfl, rfl, rfl, by decide⟩

/-- C7, amended: for every filter whose meetingIds list is non-empty with
length N, the built query continues the base query with
` WHERE meeting_id IN (` ph `)` where ph consists of `?` and `,` only and
holds exactly N placeholders, and the returned argument list is the N meeting
ids in input order followed by `true` exactly when visibleOnly is set (so its
length is N when visibleOnly is false and N + 1 when it is true). -/
theorem C7_in_clause_and_args (lo up : Char → Char) (query : String)
    (rf : racing.ListRacesRequestFilter) (ef : sports.ListEventsRequestFilter)
    (hr : rf.MeetingIds ≠ []) (he : ef.MeetingIds ≠ []) :
    ((racesRepo.applyFilter lo up query (some rf)).1
        = query ++ " WHERE meeting_id IN ("
            ++ (strings.Repeat "?," (rf.MeetingIds.length - 1) ++ "?") ++ ")"
            ++ (if rf.VisibleOnly then " AND visible = ?" else "")
            ++ " ORDER BY " ++ sortField lo rf.SortBy ++ sortDir up rf.Order
      ∧ countPlaceholders (strings.Repeat "?," (rf.MeetingIds.length - 1) ++ "?")
          = rf.MeetingIds.length
      ∧ (∀ c ∈ (strings.Repeat "?," (rf.MeetingIds.length - 1) ++ "?").data, c = '?' ∨ c = ',')
      ∧ (racesRepo.applyFilter lo up query (some rf)).2
          = rf.MeetingIds.map Arg.int64 ++ (if rf.VisibleOnly then [Arg.bool true] else [])
      ∧ (racesRepo.applyFilter lo up query (some rf)).2.length
          = rf.MeetingIds.length + (if rf.VisibleOnly then 1 else 0))
    ∧ ((eventsRepo.applyFilter lo up query (some ef)).1
        = query ++ " WHERE meeting_id IN ("
            ++ (strings.Repeat "?," (ef.MeetingIds.length - 1) ++ "?") ++ ")"
            ++ (if ef.VisibleOnly then " AND visible = ?" else "")
            ++ " ORDER BY " ++ sortField lo ef.SortBy ++ sortDir up ef.Order
      ∧ countPlaceholders (strings.Repeat "?," (ef.MeetingIds.length - 1) ++ "?")
          = ef.MeetingIds.length
      ∧ (∀ c ∈ (strings.Repeat "?," (ef.MeetingIds.length - 1) ++ "?").data, c = '?' ∨ c = ',')
      ∧ (eventsRepo.applyFilter lo up query (some ef)).2
          = ef.MeetingIds.map Arg.int64 ++ (if ef.VisibleOnly then [Arg.bool true] else [])
      ∧ (eventsRepo.applyFilter lo up query (some ef)).2.length
          = ef.MeetingIds.length + (if ef.VisibleOnly then 1 else 0)) := by
  have hrpos : 0 < rf.MeetingIds.length := List.length_pos.mpr hr
  have hepos : 0 < ef.MeetingIds.length := List.length_pos.mpr he
  refine ⟨⟨?_, in_placeholders_count _ hrpos, in_placeholders_chars _, ?_, ?_⟩,
    ⟨?_, in_placeholders_count _ hepos, in_placeholders_chars _, ?_, ?_⟩⟩
  · rw [races_applyFilter_some, whereText_of_ne_nil _ _ hr]
    simp only [String.append_assoc]
  · rw [races_applyFilter_some]; rfl
  · rw [races_applyFilter_some]
    cases hv : rf.VisibleOnly <;> simp [whereArgs, hv]
  · rw [events_applyFilter_some, whereText_of_ne_nil _ _ he]
    simp only [String.append_assoc]
  · rw [events_applyFilter_some]; rfl
  · rw [events_applyFilter_some]
    cases hv : ef.VisibleOnly <;> simp [whereArgs, hv]

/-- C7, witness: the amended statement at meeting ids [4, 5, 6] without the
visibility flag. -/
theorem C7_in_clause_and_args_witness :
    ([4, 5, 6] : List Int) ≠ []
      ∧ (racesRepo.applyFilter id id "SELECT * FROM items" (some ⟨[4, 5, 6], false, "", ""⟩)).2
          = ([4, 5, 6] : List Int).map Arg.int64 ++ (if false then [Arg.bool true] else [])
      ∧ (eventsRepo.applyFilter id id "SELECT * FROM items" (some ⟨[4, 5, 6], false, "", ""⟩)).2
          = ([4, 5, 6] : List Int).map Arg.int64 ++ (if false then [Arg.bool true] else []) :=
  ⟨by decide,
    (C7_in_clause_and_args id id "SELECT * FROM items" ⟨[4, 5, 6], false, "", ""⟩
      ⟨[4, 5, 6], false, "", ""⟩ (by decide) (by decide)).1.2.2.2.1,
    (C7_in_clause_and_args id id "SELECT * FROM items" ⟨[4, 5, 6], false, "", ""⟩
      ⟨[4, 5, 6], false, "", ""⟩ (by decide) (by decide)).2.2.2.2.1⟩

/-- C8: for every non-nil filter with an empty meetingIds list and
visibleOnly = false, and every base query, the builders add no WHERE clause: the
built query is the base query followed at once by ` ORDER BY <field> <direction>`,
and the argument list is empty. -/
theorem C8_no_where_without_constraints (lo up : Char → Char) (query : String)
    (rf : racing.ListRacesRequestFilter) (ef : sports.ListEventsRequestFilter)
    (hr1 : rf.MeetingIds = []) (hr2 : rf.VisibleOnly = false)
    (he1 : ef.MeetingIds = []) (he2 : ef.VisibleOnly = false) :
    racesRepo.applyFilter lo up query (some rf)
        = (query ++ " ORDER BY "
            ++ (if rf.SortBy = "" then "advertised_start_time" else strings.ToLower lo rf.SortBy)
            ++ (if strings.ToUpper up rf.Order = "ASC" ∨ strings.ToUpper up rf.Order = "ASCENDING"
                  then " ASC" else " DESC"), [])
    ∧ eventsRepo.applyFilter lo up query (some ef)
        = (query ++ " ORDER BY "
            ++ (if ef.SortBy = "" then "advertised_start_time" else strings.ToLower lo ef.SortBy)
            ++ (if strings.ToUpper up ef.Order = "ASC" ∨ strings.ToUpper up ef.Order = "ASCENDING"
                  then " ASC" else " DESC"), []) := by
  constructor
  · rw [races_applyFilter_some, hr1, hr2, whereText_nil_false, whereArgs_nil_false,
      String.append_empty]
    rfl
  · rw [events_applyFilter_some, he1, he2, whereText_nil_false, whereArgs_nil_false,
      String.append_empty]
    rfl

/-- C8, witness: the filter with only sortBy `name` set, over `SELECT * FROM items`. -/
theorem C8_no_where_without_constraints_witness :
    racesRepo.applyFilter id id "SELECT * FROM items" (some ⟨[], false, "name", ""⟩)
        = ("SELECT * FROM items ORDER BY name DESC", [])
    ∧ eventsRepo.applyFilter id id "SELECT * FROM items" (some ⟨[], false, "name", ""⟩)
        = ("SELECT * FROM items ORDER BY name DESC", []) :=
  C8_no_where_without_constraints id id "SELECT * FROM items" ⟨[], false, "name", ""⟩
    ⟨[], false, "name", ""⟩ rfl rfl rfl rfl

/-! ## The claims about the row materialiser -/

theorem ptypes.TimestampProto_ok (t : time.Time) (ht : t.wf)
    (hlo : ptypes.minValidSeconds ≤ t.sec) (hhi : t.sec < ptypes.maxValidSeconds) :
    ptypes.TimestampProto t = Sum.inl { Seconds := t.sec, Nanos := t.nsec } := by
  simp only [time.Time.wf] at ht
  unfold ptypes.TimestampProto
  simp only
  rw [if_neg (by omega), if_neg (by omega), if_neg (by omega)]

theorem races_Init_done {DB : Type} (seed : DB → DB × Option GoError) (r : racesRepo DB)
    (h : r.init.done = true) : racesRepo.Init seed r = (r, none) := by
  simp [racesRepo.Init, h]

theorem events_Init_done {DB : Type} (seed : DB → DB × Option GoError) (r : eventsRepo DB)
    (h : r.init.done = true) : eventsRepo.Init seed r = (r, none) := by
  simp [eventsRepo.Init, h]

/-- Once the guard has fired, every further `Init` call returns nil and leaves
the repository as it is. -/
theorem races_InitCalls_done {DB : Type} (seed : DB → DB × Option GoError) (n : Nat)
    (r : racesRepo DB) (h : r.init.done = true) :
    racesRepo.InitCalls seed n r = (List.replicate n none, r) := by
  induction n with
  | zero => rfl
  | succ k ih => simp [racesRepo.InitCalls, races_Init_done seed r h, ih, List.replicate_succ]

theorem events_InitCalls_done {DB : Type} (seed : DB → DB × Option GoError) (n : Nat)
    (r : eventsRepo DB) (h : r.init.done = true) :
    eventsRepo.InitCalls seed n r = (List.replicate n none, r) := by
  induction n with
  | zero => rfl
  | succ k ih => simp [eventsRepo.InitCalls, events_Init_done seed r h, ih, List.replicate_succ]

/-- C10, counterexample: on a store that counts the seed executions, with a
seed that fails, two `Init` calls on a new repository return the seed error
and then nil, having run the seed once. -/
theorem C10_counterexample_later_init_returns_nil :
    (racesRepo.InitCalls (fun n : Nat => (n + 1, some (GoError.other "seed failed"))) 2
        (NewRacesRepo 0)).1 = [some (GoError.other "seed failed"), none]
    ∧ (racesRepo.InitCalls (fun n : Nat => (n + 1, some (GoError.other "seed failed"))) 2
        (NewRacesRepo 0)).2.db = 1
    ∧ (eventsRepo.InitCalls (fun n : Nat => (n + 1, some (GoError.other "seed failed"))) 2
        (NewEventsRepo 0)).1 = [some (GoError.other "seed failed"), none]
    ∧ (eventsRepo.InitCalls (fun n : Nat => (n + 1, some (GoError.other "seed failed"))) 2
        (NewEventsRepo 0)).2.db = 1
    ∧ some (GoError.other "seed failed") ≠ (none : Option GoError) := by
  refine ⟨rfl, rfl, rfl, rfl, by decide⟩

/-- C10, amended: for every seeding routine and every number of repeated `Init`
calls on a new repository, the seed runs once, in the first call, which returns
the seed's outcome; every later call returns no error and leaves the store as
the seed left it.  Hence all calls return the identical outcome exactly when
the seed succeeded. -/
theorem C10_init_outcomes {DB : Type} (seed : DB → DB × Option GoError) (db : DB) (n : Nat) :
    (racesRepo.InitCalls seed (n + 1) (NewRacesRepo db)).1
        = (seed db).2 :: List.replicate n none
    ∧ (racesRepo.InitCalls seed (n + 1) (NewRacesRepo db)).2.db = (seed db).1
    ∧ (eventsRepo.InitCalls seed (n + 1) (NewEventsRepo db)).1
        = (seed db).2 :: List.replicate n none
    ∧ (eventsRepo.InitCalls seed (n + 1) (NewEventsRepo db)).2.db = (seed db).1
    ∧ ((seed db).2 = none →
        (∀ e ∈ (racesRepo.InitCalls seed (n + 1) (NewRacesRepo db)).1, e = none)
        ∧ (∀ e ∈ (eventsRepo.InitCalls seed (n + 1) (NewEventsRepo db)).1, e = none)) := by
  have hr : racesRepo.InitCalls seed (n + 1) (NewRacesRepo db)
      = ((seed db).2 :: List.replicate n none, { db := (seed db).1, init := { done := true } }) := by
    simp [racesRepo.InitCalls, racesRepo.Init, NewRacesRepo, races_InitCalls_done]
  have he : eventsRepo.InitCalls seed (n + 1) (NewEventsRepo db)
      = ((seed db).2 :: List.replicate n none, { db := (seed db).1, init := { done := true } }) := by
    simp [eventsRepo.InitCalls, eventsRepo.Init, NewEventsRepo, events_InitCalls_done]
  rw [hr, he]
  refine ⟨rfl, rfl, rfl, rfl, ?_⟩
  intro hs
  simp [hs]

/-! ## Materialising a whole result set -/

/-- The races loop over rows that all scan and carry valid timestamps: it ends
without error, and appends to the accumulated records one record per row, in
row order, each holding the columns of its row. -/
theorem races_loop_all_ok (now : Nat → time.Time) (rows : List sql.Row)
    (h : ∀ row ∈ rows, row.advertisedStart.wf ∧ ptypes.minValidSeconds ≤ row.advertisedStart.sec
      ∧ row.advertisedStart.sec < ptypes.maxValidSeconds) :
    ∀ (i : Nat) (acc : List racing.Race), ∃ recs : List racing.Race,
      racesRepo.scanRaces.loop now i (rows.map sql.Scan.ok) acc = (acc ++ recs, none)
      ∧ recs.map (fun r => (r.Id, r.MeetingId, r.Name, r.Number, r.Visible, r.AdvertisedStartTime))
          = rows.map (fun row => (row.Id, row.MeetingId, row.Name, row.Number, row.Visible,
              ({ Seconds := row.advertisedStart.sec, Nanos := row.advertisedStart.nsec } :
                timestamppb.Timestamp))) := by
  induction rows with
  | nil =>
    intro i acc
    exact ⟨[], by simp [racesRepo.scanRaces.loop], rfl⟩
  | cons row rest ih =>
    intro i acc
    obtain ⟨hwf, hlo, hhi⟩ := h row (List.mem_cons_self _ _)
    have hrest : ∀ r ∈ rest, r.advertisedStart.wf ∧ ptypes.minValidSeconds ≤ r.advertisedStart.sec
        ∧ r.advertisedStart.sec < ptypes.maxValidSeconds :=
      fun r hr => h r (List.mem_cons_of_mem _ hr)
    have key : ∀ st : String, ∃ recs : List racing.Race,
        racesRepo.scanRaces.loop now (i + 1) (rest.map sql.Scan.ok)
            (acc ++ [{ Id := row.Id, MeetingId := row.MeetingId, Name := row.Name,
                       Number := row.Number, Visible := row.Visible,
                       AdvertisedStartTime :=
                         { Seconds := row.advertisedStart.sec, Nanos := row.advertisedStart.nsec },
                       Status := st }])
          = (acc ++ recs, none)
        ∧ recs.map (fun r => (r.Id, r.MeetingId, r.Name, r.Number, r.Visible, r.AdvertisedStartTime))
          = (row :: rest).map (fun row => (row.Id, row.MeetingId, row.Name, row.Number, row.Visible,
              ({ Seconds := row.advertisedStart.sec, Nanos := row.advertisedStart.nsec } :
                timestamppb.Timestamp))) := by
      intro st
      obtain ⟨recs, hloop, hmap⟩ := ih hrest (i + 1)
        (acc ++ [{ Id := row.Id, MeetingId := row.MeetingId, Name := row.Name,
                   Number := row.Number, Visible := row.Visible,
                   AdvertisedStartTime :=
                     { Seconds := row.advertisedStart.sec, Nanos := row.advertisedStart.nsec },
                   Status := st }])
      refine ⟨{ Id := row.Id, MeetingId := row.MeetingId, Name := row.Name,
                Number := row.Number, Visible := row.Visible,
                AdvertisedStartTime :=
                  { Seconds := row.advertisedStart.sec, Nanos := row.advertisedStart.nsec },
                Status := st } :: recs, ?_, ?_⟩
      · rw [hloop, List.append_assoc]
        rfl
      · rw [List.map_cons, List.map_cons, hmap]
    rw [List.map_cons, racesRepo.scanRaces.loop, ptypes.TimestampProto_ok _ hwf hlo hhi]
    simp only
    split
    · exact key "CLOSED"
    · exact key "OPEN"

/-- The events loop over rows that all scan and carry valid timestamps: it ends
without error, and appends to the accumulated records one record per row, in
row order, each holding the columns of its row. -/
theorem events_loop_all_ok (now : Nat → time.Time) (rows : List sql.Row)
    (h : ∀ row ∈ rows, row.advertisedStart.wf ∧ ptypes.minValidSeconds ≤ row.advertisedStart.sec
      ∧ row.advertisedStart.sec < ptypes.maxValidSeconds) :
    ∀ (i : Nat) (acc : List sports.Event), ∃ recs : List sports.Event,
      eventsRepo.scanEvents.loop now i (rows.map sql.Scan.ok) acc = (acc ++ recs, none)
      ∧ recs.map (fun r => (r.Id, r.MeetingId, r.Name, r.Number, r.Visible, r.AdvertisedStartTime))
          = rows.map (fun row => (row.Id, row.MeetingId, row.Name, row.Number, row.Visible,
              ({ Seconds := row.advertisedStart.sec, Nanos := row.advertisedStart.nsec } :
                timestamppb.Timestamp))) := by
  induction rows with
  | nil =>
    intro i acc
    exact ⟨[], by simp [eventsRepo.scanEvents.loop], rfl⟩
  | cons row rest ih =>
    intro i acc
    obtain ⟨hwf, hlo, hhi⟩ := h row (List.mem_cons_self _ _)
    have hrest : ∀ r ∈ rest, r.advertisedStart.wf ∧ ptypes.minValidSeconds ≤ r.advertisedStart.sec
        ∧ r.advertisedStart.sec < ptypes.maxValidSeconds :=
      fun r hr => h r (List.mem_cons_of_mem _ hr)
    have key : ∀ st : String, ∃ recs : List sports.Event,
        eventsRepo.scanEvents.loop now (i + 1) (rest.map sql.Scan.ok)
            (acc ++ [{ Id := row.Id, MeetingId := row.MeetingId, Name := row.Name,
                       Number := row.Number, Visible := row.Visible,
                       AdvertisedStartTime :=
                         { Seconds := row.advertisedStart.sec, Nanos := row.advertisedStart.nsec },
                       Status := st }])
          = (acc ++ recs, none)
        ∧ recs.map (fun r => (r.Id, r.MeetingId, r.Name, r.Number, r.Visible, r.AdvertisedStartTime))
          = (row :: rest).map (fun row => (row.Id, row.MeetingId, row.Name, row.Number, row.Visible,
              ({ Seconds := row.advertisedStart.sec, Nanos := row.advertisedStart.nsec } :
                timestamppb.Timestamp))) := by
      intro st
      obtain ⟨recs, hloop, hmap⟩ := ih hrest (i + 1)
        (acc ++ [{ Id := row.Id, MeetingId := row.MeetingId, Name := row.Name,
                   Number := row.Number, Visible := row.Visible,
                   AdvertisedStartTime :=
                     { Seconds := row.advertisedStart.sec, Nanos := row.advertisedStart.nsec },
                   Status := st }])
      refine ⟨{ Id := row.Id, MeetingId := row.MeetingId, Name := row.Name,
                Number := row.Number, Visible := row.Visible,
                AdvertisedStartTime :=
                  { Seconds := row.advertisedStart.sec, Nanos := row.advertisedStart.nsec },
                Status := st } :: recs, ?_, ?_⟩
      · rw [hloop, List.append_assoc]
        rfl
      · rw [List.map_cons, List.map_cons, hmap]
    rw [List.map_cons, eventsRepo.scanEvents.loop, ptypes.TimestampProto_ok _ hwf hlo hhi]
    simp only
    split
    · exact key "CLOSED"
    · exact key "OPEN"

/-- C11, amended: for every sequence of rows that all decode successfully and
whose advertised start times are valid timestamps (from 0001-01-01T00:00:00Z up
to, not including, 10000-01-01T00:00:00Z), scanRaces and scanEvents return no
error and exactly one record per row, in the order of the rows, each record
holding the columns of its row; for the empty row sequence they return an
empty collection and no error. -/
theorem C11_one_record_per_row_in_order (now : Nat → time.Time) (rows : List sql.Row)
    (h : ∀ row ∈ rows, row.advertisedStart.wf ∧ ptypes.minValidSeconds ≤ row.advertisedStart.sec
      ∧ row.advertisedStart.sec < ptypes.maxValidSeconds) :
    ((racesRepo.scanRaces now (rows.map sql.Scan.ok)).2 = none
      ∧ (racesRepo.scanRaces now (rows.map sql.Scan.ok)).1.length = rows.length
      ∧ (racesRepo.scanRaces now (rows.map sql.Scan.ok)).1.map
            (fun r => (r.Id, r.MeetingId, r.Name, r.Number, r.Visible, r.AdvertisedStartTime))
          = rows.map (fun row => (row.Id, row.MeetingId, row.Name, row.Number, row.Visible,
              ({ Seconds := row.advertisedStart.sec, Nanos := row.advertisedStart.nsec } :
                timestamppb.Timestamp))))
    ∧ ((eventsRepo.scanEvents now (rows.map sql.Scan.ok)).2 = none
      ∧ (eventsRepo.scanEvents now (rows.map sql.Scan.ok)).1.length = rows.length
      ∧ (eventsRepo.scanEvents now (rows.map sql.Scan.ok)).1.map
            (fun r => (r.Id, r.MeetingId, r.Name, r.Number, r.Visible, r.AdvertisedStartTime))
          = rows.map (fun row => (row.Id, row.MeetingId, row.Name, row.Number, row.Visible,
              ({ Seconds := row.advertisedStart.sec, Nanos := row.advertisedStart.nsec } :
                timestamppb.Timestamp))))
    ∧ racesRepo.scanRaces now [] = ([], none)
    ∧ eventsRepo.scanEvents now [] = ([], none) := by
  obtain ⟨rrecs, hr, hrmap⟩ := races_loop_all_ok now rows h 0 []
  obtain ⟨erecs, he, hemap⟩ := events_loop_all_ok now rows h 0 []
  have hrlen : rrecs.length = rows.length := by
    have := congrArg List.length hrmap
    simpa using this
  have helen : erecs.length = rows.length := by
    have := congrArg List.length hemap
    simpa using this
  rw [List.nil_append] at hr he
  refine ⟨⟨?_, ?_, ?_⟩, ⟨?_, ?_, ?_⟩, rfl, rfl⟩
  · rw [racesRepo.scanRaces, hr]
  · rw [racesRepo.scanRaces, hr]; exact hrlen
  · rw [racesRepo.scanRaces, hr]; exact hrmap
  · rw [eventsRepo.scanEvents, he]
  · rw [eventsRepo.scanEvents, he]; exact helen
  · rw [eventsRepo.scanEvents, he]; exact hemap

/-- C11, witness: two rows, the later start time first, read at a fixed time;
the two records come back in that same order. -/
theorem C11_one_record_per_row_in_order_witness :
    (racesRepo.scanRaces (fun _ => { sec := 1609459200, nsec := 0 })
        [sql.Scan.ok { Id := 2, MeetingId := 5, Name := "Oaks", Number := 4, Visible := false,
                       advertisedStart := { sec := 1609462800, nsec := 0 } },
         sql.Scan.ok { Id := 1, MeetingId := 5, Name := "Derby", Number := 3, Visible := true,
                       advertisedStart := { sec := 1609455600, nsec := 0 } }]).1.map
          (fun r => (r.Id, r.MeetingId, r.Name, r.Number, r.Visible, r.AdvertisedStartTime))
      = [(2, 5, "Oaks", 4, false, { Seconds := 1609462800, Nanos := 0 }),
         (1, 5, "Derby", 3, true, { Seconds := 1609455600, Nanos := 0 })] :=
  (C11_one_record_per_row_in_order (fun _ => { sec := 1609459200, nsec := 0 })
      [{ Id := 2, MeetingId := 5, Name := "Oaks", Number := 4, Visible := false,
         advertisedStart := { sec := 1609462800, nsec := 0 } },
       { Id := 1, MeetingId := 5, Name := "Derby", Number := 3, Visible := true,
         advertisedStart := { sec := 1609455600, nsec := 0 } }]
      (by decide)).1.2.2

/-! ## The two builders side by side, and the order token -/

/-- C12: the races and the events query builders agree: for every base query
and every pair of filters with the same meetingIds, visibleOnly, sortBy and
order they return the same query text and the same argument list, and so they
do when both filters are nil. -/
theorem C12_builders_agree (lo up : Char → Char) (query : String)
    (rf : racing.ListRacesRequestFilter) (ef : sports.ListEventsRequestFilter)
    (hids : rf.MeetingIds = ef.MeetingIds) (hvis : rf.VisibleOnly = ef.VisibleOnly)
    (hsort : rf.SortBy = ef.SortBy) (hord : rf.Order = ef.Order) :
    racesRepo.applyFilter lo up query (some rf) = eventsRepo.applyFilter lo up query (some ef)
      ∧ racesRepo.applyFilter lo up query none = eventsRepo.applyFilter lo up query none := by
  refine ⟨?_, rfl⟩
  rw [races_applyFilter_some, events_applyFilter_some, hids, hvis, hsort, hord]

/-- C12, witness: both builders on the filter with meeting ids [1, 2],
visibleOnly set, sortBy `Name` and order `asc`. -/
theorem C12_builders_agree_witness :
    racesRepo.applyFilter id id "SELECT * FROM items" (some ⟨[1, 2], true, "Name", "asc"⟩)
        = eventsRepo.applyFilter id id "SELECT * FROM items" (some ⟨[1, 2], true, "Name", "asc"⟩)
      ∧ racesRepo.applyFilter id id "SELECT * FROM items" none
        = eventsRepo.applyFilter id id "SELECT * FROM items" none :=
  C12_builders_agree id id "SELECT * FROM items" ⟨[1, 2], true, "Name", "asc"⟩
    ⟨[1, 2], true, "Name", "asc"⟩ rfl rfl rfl rfl

/-- C13: the order token never reaches the query text: for every base query
and any two non-nil filters with the same meetingIds, visibleOnly and sortBy
whose order values both uppercase to something other than `ASC` and
`ASCENDING`, each builder returns the same query and the same argument list
for both, and the text after the sort field is exactly ` DESC`. -/
theorem C13_order_token_not_in_query (lo up : Char → Char) (query : String)
    (ids : List Int) (vis : Bool) (sortBy order1 order2 : String)
    (h1 : ¬ (strings.ToUpper up order1 = "ASC" ∨ strings.ToUpper up order1 = "ASCENDING"))
    (h2 : ¬ (strings.ToUpper up order2 = "ASC" ∨ strings.ToUpper up order2 = "ASCENDING")) :
    (racesRepo.applyFilter lo up query (some ⟨ids, vis, sortBy, order1⟩)
        = racesRepo.applyFilter lo up query (some ⟨ids, vis, sortBy, order2⟩)
      ∧ (racesRepo.applyFilter lo up query (some ⟨ids, vis, sortBy, order1⟩)).1
        = query ++ whereText ids vis ++ " ORDER BY "
            ++ (if sortBy = "" then "advertised_start_time" else strings.ToLower lo sortBy)
            ++ " DESC")
    ∧ (eventsRepo.applyFilter lo up query (some ⟨ids, vis, sortBy, order1⟩)
        = eventsRepo.applyFilter lo up query (some ⟨ids, vis, sortBy, order2⟩)
      ∧ (eventsRepo.applyFilter lo up query (some ⟨ids, vis, sortBy, order1⟩)).1
        = query ++ whereText ids vis ++ " ORDER BY "
            ++ (if sortBy = "" then "advertised_start_time" else strings.ToLower lo sortBy)
            ++ " DESC") := by
  have d1 : sortDir up order1 = " DESC" := by simp only [sortDir, if_neg h1]
  have d2 : sortDir up order2 = " DESC" := by simp only [sortDir, if_neg h2]
  refine ⟨⟨?_, ?_⟩, ⟨?_, ?_⟩⟩
  · rw [races_applyFilter_some, races_applyFilter_some]
    simp only [d1, d2]
  · rw [races_applyFilter_some]
    simp only [d1]
    rfl
  · rw [events_applyFilter_some, events_applyFilter_some]
    simp only [d1, d2]
  · rw [events_applyFilter_some]
    simp only [d1]
    rfl

/-- C13, witness: the order tokens `; DROP TABLE races` and the empty one give
the same query, which ends in ` DESC` right after the sort field. -/
theorem C13_order_token_not_in_query_witness :
    (racesRepo.applyFilter id id "SELECT * FROM items"
          (some ⟨[3], false, "name", "; DROP TABLE races"⟩)
        = racesRepo.applyFilter id id "SELECT * FROM items" (some ⟨[3], false, "name", ""⟩)
      ∧ (racesRepo.applyFilter id id "SELECT * FROM items"
          (some ⟨[3], false, "name", "; DROP TABLE races"⟩)).1
        = "SELECT * FROM items WHERE meeting_id IN (?) ORDER BY name DESC")
    ∧ (eventsRepo.applyFilter id id "SELECT * FROM items"
          (some ⟨[3], false, "name", "; DROP TABLE races"⟩)
        = eventsRepo.applyFilter id id "SELECT * FROM items" (some ⟨[3], false, "name", ""⟩)
      ∧ (eventsRepo.applyFilter id id "SELECT * FROM items"
          (some ⟨[3], false, "name", "; DROP TABLE races"⟩)).1
        = "SELECT * FROM items WHERE meeting_id IN (?) ORDER BY name DESC") :=
  C13_order_token_not_in_query id id "SELECT * FROM items" [3] false "name"
    "; DROP TABLE races" "" (by decide) (by decide)

/-! ## The status of every row, and start times that are no valid timestamp -/

/-- C11, counterexample: two rows that both scan, the second with the start
time 10000-01-01T00:00:00Z: the materialisers return an error and no record. -/
theorem C11_counterexample_decoded_row_invalid_timestamp :
    ({ sec := 253402300800, nsec := 0 } : time.Time).wf
    ∧ (racesRepo.scanRaces (fun _ => { sec := 1609459200, nsec := 0 })
        [sql.Scan.ok { Id := 1, MeetingId := 5, Name := "Derby", Number := 3, Visible := true,
                       advertisedStart := { sec := 1609455600, nsec := 0 } },
         sql.Scan.ok { Id := 2, MeetingId := 5, Name := "Oaks", Number := 4, Visible := false,
                       advertisedStart := { sec := 253402300800, nsec := 0 } }]).1 = []
    ∧ (racesRepo.scanRaces (fun _ => { sec := 1609459200, nsec := 0 })
        [sql.Scan.ok { Id := 1, MeetingId := 5, Name := "Derby", Number := 3, Visible := true,
                       advertisedStart := { sec := 1609455600, nsec := 0 } },
         sql.Scan.ok { Id := 2, MeetingId := 5, Name := "Oaks", Number := 4, Visible := false,
                       advertisedStart := { sec := 253402300800, nsec := 0 } }]).2 ≠ none
    ∧ (eventsRepo.scanEvents (fun _ => { sec := 1609459200, nsec := 0 })
        [sql.Scan.ok { Id := 1, MeetingId := 5, Name := "Derby", Number := 3, Visible := true,
                       advertisedStart := { sec := 1609455600, nsec := 0 } },
         sql.Scan.ok { Id := 2, MeetingId := 5, Name := "Oaks", Number := 4, Visible := false,
                       advertisedStart := { sec := 253402300800, nsec := 0 } }]).1 = []
    ∧ (eventsRepo.scanEvents (fun _ => { sec := 1609459200, nsec := 0 })
        [sql.Scan.ok { Id := 1, MeetingId := 5, Name := "Derby", Number := 3, Visible := true,
                       advertisedStart := { sec := 1609455600, nsec := 0 } },
         sql.Scan.ok { Id := 2, MeetingId := 5, Name := "Oaks", Number := 4, Visible := false,
                       advertisedStart := { sec := 253402300800, nsec := 0 } }]).2 ≠ none := by
  refine ⟨by decide, by decide, by decide, by decide, by decide⟩
